import Mathlib

set_option maxHeartbeats 1000000

/-!
Shallow embedding of pyref.py (repository pyOuroboros, file src/py.py), an
interactive single-key-driven terminal walkthrough.  File contents are
modelled as `List Char` (the program only ever writes `\n` line breaks),
the raw single-key input stream as a `List Char`, the line-buffered input
stream as a `List (List Char)`, and the termios terminal-mode configuration
as a `Nat`.  A diverging Python loop (a prompt loop fed only keys it
rejects, or an exhausted key stream, which makes `sys.stdin.read(1)` return
the empty string forever) is modelled by `Option.none`.
-/

/-- Errors a step of the walkthrough can raise: `KeyboardInterrupt` (raised
by `get_single_key` on Ctrl-C), `FileNotFoundError` (raised by
`Path.read_text` on a missing file) and `EOFError` (raised by `input()` when
standard input is exhausted). -/
inductive PyErr : Type
  | interrupt
  | fileNotFound
  | eofError
  deriving DecidableEq

/-- Python `str.splitlines` restricted to `\n` line breaks, the only line
break the program ever writes: split a character list at newlines; content
that ends with a newline gets no trailing empty line. -/
def splitlines : List Char → List (List Char)
  | [] => []
  | c :: rest =>
    if c = '\n' then [] :: splitlines rest
    else
      match splitlines rest with
      | [] => [[c]]
      | l :: ls => (c :: l) :: ls

/-- Python `"\n".join(lines)`: the lines joined with a single newline
between consecutive ones. -/
def joinLines : List (List Char) → List Char
  | [] => []
  | [l] => l
  | l :: l2 :: tl => l ++ '\n' :: joinLines (l2 :: tl)

/-- Python `"\n".join(lines) + "\n"`, the way the program writes a list of
lines back to a file. -/
def joinNl (ls : List (List Char)) : List Char :=
  joinLines ls ++ ['\n']

/-- Python `str.rstrip()`: drop trailing whitespace. -/
def pyRstrip (s : List Char) : List Char :=
  (s.reverse.dropWhile Char.isWhitespace).reverse

/-- Python `str.strip()`: drop leading and trailing whitespace. -/
def pyStrip (s : List Char) : List Char :=
  pyRstrip (s.dropWhile Char.isWhitespace)

/-- The termios configuration `tty.setraw` installs while one key is read
(raw, unbuffered, no echo); any fixed value serves, the program never reads
it back. -/
def rawMode : Nat := 1

/-- Embedding of `get_single_key` (src/py.py:51-70).  The function captures
`old_settings`, switches the terminal to raw mode, reads one character from
stdin, and the `finally` clause restores `old_settings` on every exit path.
Result: the decoded key (or `Except.error ()` for the `KeyboardInterrupt`
raised when the character read is Ctrl-C, ordinal 3), the terminal mode in
effect after the call, and the remaining key stream.  An exhausted stream
makes `sys.stdin.read(1)` return the empty string, so the function returns
`("", 0)`. -/
def get_single_key (mode : Nat) (keys : List Char) :
    Except Unit (List Char × Nat) × Nat × List Char :=
  let old_settings := mode
  let _raw := rawMode
  match keys with
  | [] => (Except.ok ([], 0), old_settings, [])
  | c :: rest =>
    if c.toNat = 3 then (Except.error (), old_settings, rest)
    else (Except.ok ([c], c.toNat), old_settings, rest)

/-- One chunk of terminal output. -/
abbrev Out := List Char

/-- A key `ask_yes_no` rejects: neither Ctrl-C, nor `y`/`Y`, nor `n`/`N`,
nor Escape (ordinal 27); the loop re-prompts and reads again. -/
def yesNoRejected (c : Char) : Bool :=
  c.toNat ≠ 3 && c.toLower ≠ 'y' && c.toLower ≠ 'n' && c.toNat ≠ 27

/-- Loop body of `ask_yes_no` (src/py.py:144-157), carrying the output
written so far.  Each key read is echoed back followed by a newline (the
echo happens after `get_single_key` returns, so an interrupting Ctrl-C is
not echoed); a rejected key adds the guidance re-prompt and loops.  `none`
models the diverging loop on an exhausted key stream. -/
def ask_yes_no_loop : List Char → List Out → Option (Except Unit Bool × List Char × List Out)
  | [], _out => none
  | c :: rest, out =>
    if c.toNat = 3 then some (Except.error (), rest, out)
    else
      let out := out ++ [[c, '\n']]
      if c.toLower = 'y' then some (Except.ok true, rest, out)
      else if c.toLower = 'n' then some (Except.ok false, rest, out)
      else if c.toNat = 27 then some (Except.ok false, rest, out)
      else ask_yes_no_loop rest (out ++ ["Please press 'y' or 'n': ".data])

/-- Embedding of `ask_yes_no` (src/py.py:137-157): print the question, then
loop on single keys; `y`/`Y` is true, `n`/`N` is false, Escape is false, any
other key re-prompts.  Returns the answer (or the propagated interrupt), the
remaining keys, and the output chunks written. -/
def ask_yes_no (question : Out) (keys : List Char) :
    Option (Except Unit Bool × List Char × List Out) :=
  ask_yes_no_loop keys [question]

/-- Embedding of `append_text_to_file` (src/py.py:167-173): open the file in
append mode (which creates it when missing) and write the text followed by a
newline. -/
def append_text_to_file (text : List Char) (file : Option (List Char)) : List Char :=
  file.getD [] ++ text ++ ['\n']

/-- Python `int(s)` accepts an optional sign followed by digits (underscore
separators, irrelevant to this program's inputs, are not modelled). -/
def isIntString (s : List Char) : Bool :=
  match s with
  | [] => false
  | c :: rest =>
    if c = '+' ∨ c = '-' then !rest.isEmpty && rest.all Char.isDigit
    else !(c :: rest).isEmpty && (c :: rest).all Char.isDigit

/-- The `while len(lines) < 2: lines.append("")` padding of
`prepend_number_to_second_line`. -/
def padTo2 : List (List Char) → List (List Char)
  | [] => [[], []]
  | [l] => [l, []]
  | ls => ls

/-- Embedding of `prepend_number_to_second_line` (src/py.py:176-198): loop
prompting for a line of input; blank input skips (the file is untouched), a
valid integer string breaks the loop, anything else re-prompts.  Then the
file is read (`FileNotFoundError` when missing), split into lines, padded to
two lines, the stripped input string is prepended to line 2 with a space,
and the lines are rejoined with a trailing newline.  `input()` on an
exhausted stream raises `EOFError`, which nothing here catches. -/
def prepend_number_to_second_line :
    List (List Char) → Option (List Char) → Except PyErr (Option (List Char)) × List (List Char)
  | [], _file => (Except.error PyErr.eofError, [])
  | s :: rest, file =>
    let t := pyStrip s
    if t = [] then (Except.ok file, rest)
    else if isIntString t then
      match file with
      | none => (Except.error PyErr.fileNotFound, rest)
      | some content =>
        match padTo2 (splitlines content) with
        | l0 :: l1 :: ls => (Except.ok (some (joinNl (l0 :: (t ++ ' ' :: l1) :: ls))), rest)
        | other => (Except.ok (some (joinNl other)), rest)
    else prepend_number_to_second_line rest file

/-- The nonblank lines of the menu file, exactly the filter
`[ln for ln in content.splitlines() if ln.strip()]` of `menu_from_file`. -/
def menu_lines (content : List Char) : List (List Char) :=
  (splitlines content).filter (fun ln => !ln.all Char.isWhitespace)

/-- Key loop of `menu_from_file` (src/py.py:217-228): Ctrl-C interrupts,
Escape cancels (no selection), a digit key within `1..maxC` selects the
0-based item at index one less, anything else re-prompts.  `none` models the
diverging loop on an exhausted key stream. -/
def menu_loop (lines : List (List Char)) (maxC : Nat) :
    List Char → Option (Except PyErr (Option (List Char)) × List Char)
  | [] => none
  | c :: rest =>
    if c.toNat = 3 then some (Except.error PyErr.interrupt, rest)
    else if c.toNat = 27 then some (Except.ok none, rest)
    else if c.isDigit then
      let n := c.toNat - 48
      if 1 ≤ n ∧ n ≤ maxC then some (Except.ok (some (lines.getD (n - 1) [])), rest)
      else menu_loop lines maxC rest
    else menu_loop lines maxC rest

/-- Embedding of `menu_from_file` (src/py.py:201-228): read the file
(`FileNotFoundError` when missing), keep the nonblank lines, display at most
`min 9 (number of lines)` of them, then run the key loop.  Result: the list
of displayed items, and the selection outcome with the remaining keys. -/
def menu_from_file (file : Option (List Char)) (keys : List Char) :
    List (List Char) × Option (Except PyErr (Option (List Char)) × List Char) :=
  match file with
  | none => ([], some (Except.error PyErr.fileNotFound, keys))
  | some content =>
    let lines := menu_lines content
    if lines.isEmpty then ([], some (Except.ok none, keys))
    else (lines.take (min 9 lines.length), menu_loop lines (min 9 lines.length) keys)

/-- The two branches of `marker_file_demo`. -/
inductive MarkerBranch : Type
  | A
  | B
  deriving DecidableEq

/-- The content `marker_file_demo` writes when it creates the marker file. -/
def markerContent : List Char := "marker\n".data

/-- Embedding of `marker_file_demo` (src/py.py:348-359): when the marker
file exists take branch A (which only runs `capture_bash_output "date"`, an
external command with no effect on either scratch file) and leave the
marker in place; when it does not exist, create it and take branch B. -/
def marker_file_demo (marker : Option (List Char)) : MarkerBranch × Option (List Char) :=
  match marker with
  | some m => (MarkerBranch.A, some m)
  | none => (MarkerBranch.B, some markerContent)

/-- Python `lines[0].replace("Header", "")`: remove every occurrence of the
pattern `Header`. -/
def removeAllHeader : List Char → List Char
  | 'H' :: 'e' :: 'a' :: 'd' :: 'e' :: 'r' :: rest => removeAllHeader rest
  | c :: rest => c :: removeAllHeader rest
  | [] => []

/-- Python `text.replace(pat, rep, 1)`: replace the first occurrence of the
(nonempty) pattern. -/
def replaceFirst : List Char → List Char → List Char → List Char
  | [], _pat, _rep => []
  | c :: rest, pat, rep =>
    if pat.isPrefixOf (c :: rest) then rep ++ (c :: rest).drop pat.length
    else c :: replaceFirst rest pat rep

/-- The marker text appended to the second line by `text_parsing_demo`. -/
def endSuffix : List Char := " -- END".data

/-- Lines 387-391 of src/py.py, the second-line suffix operation of
`text_parsing_demo`: when there are at least two lines and the second does
not already end with `" -- END"`, replace it by its right-stripped form with
that suffix appended; otherwise leave the lines unchanged. -/
def suffixSecondLine (lines : List (List Char)) : List (List Char) :=
  match lines with
  | l0 :: l1 :: rest =>
    if endSuffix.isSuffixOf l1 then l0 :: l1 :: rest
    else l0 :: (pyRstrip l1 ++ endSuffix) :: rest
  | ls => ls

/-- Lines 383-385 of src/py.py: when there is a first line containing
`Header`, rebuild it as `"Header: "` followed by the stripped line with
every `Header` removed. -/
def headerLine (lines : List (List Char)) : List (List Char) :=
  match lines with
  | l0 :: rest =>
    if ("Header".data) <:+: l0 then
      ("Header: ".data ++ pyStrip (removeAllHeader l0)) :: rest
    else l0 :: rest
  | [] => []

/-- The pure file transformation performed by `text_parsing_demo`
(src/py.py:362-396): replace the first `bananas` by `blueberries` when
present, split into lines, move `Header` on line 1, append the `" -- END"`
suffix on line 2, and rejoin with a trailing newline. -/
def text_parsing_transform (text : List Char) : List Char :=
  let text :=
    if ("bananas".data) <:+: text then
      replaceFirst text ("bananas".data) ("blueberries".data)
    else text
  joinNl (suffixSecondLine (headerLine (splitlines text)))

/-- The state `main` acts on: the termios terminal mode, the two scratch
files (`/tmp/pyref_example.txt` and `/tmp/pyref_marker`, each `none` when
absent), the raw single-key stream and the line-buffered input stream. -/
structure World : Type where
  mode : Nat
  tmp : Option (List Char)
  marker : Option (List Char)
  keys : List Char
  input : List (List Char)
  deriving DecidableEq

/-- A step of the walkthrough: it may diverge (`none`), raise a `PyErr`, or
return a value, in every case threading the world. -/
def M (α : Type) : Type := World → Option (Except PyErr α × World)

instance : Monad M where
  pure a := fun w => some (Except.ok a, w)
  bind x f := fun w =>
    match x w with
    | none => none
    | some (Except.error e, w') => some (Except.error e, w')
    | some (Except.ok a, w') => f a w'

/-- A `try ... except KeyboardInterrupt: ...` block: the handler runs only
on an interrupt; divergence, success and every other error pass through. -/
def catchInterrupt (body handler : M Unit) : M Unit := fun w =>
  match body w with
  | some (Except.error PyErr.interrupt, w') => handler w'
  | r => r

/-- `get_single_key` as a step: reads from the world's key stream and
threads the terminal mode through the save/restore of the underlying
function. -/
def get_single_key_M : M (List Char × Nat) := fun w =>
  match get_single_key w.mode w.keys with
  | (Except.ok r, m, ks) => some (Except.ok r, { w with mode := m, keys := ks })
  | (Except.error _, m, ks) => some (Except.error PyErr.interrupt, { w with mode := m, keys := ks })

/-- Embedding of `press_any_key` (src/py.py:73-84): read and discard one
key; its `except KeyboardInterrupt` clause prints a newline and re-raises,
so the interrupt still propagates. -/
def press_any_key_M : M Unit := fun w =>
  match get_single_key_M w with
  | some (Except.ok _, w') => some (Except.ok (), w')
  | r => r.map (fun p => (p.1.map (fun _ => ()), p.2))

/-- `ask_yes_no` as a step (the key loop leaves the terminal mode unchanged
because `get_single_key` restores it on every read). -/
def ask_yes_no_M (question : Out) : M Bool := fun w =>
  match ask_yes_no question w.keys with
  | none => none
  | some (Except.ok b, ks, _out) => some (Except.ok b, { w with keys := ks })
  | some (Except.error _, ks, _out) => some (Except.error PyErr.interrupt, { w with keys := ks })

/-- Embedding of `ask_for_text` (src/py.py:160-164): one `input()` call;
on an exhausted stream it raises `EOFError`. -/
def ask_for_text_M : M (List Char) := fun w =>
  match w.input with
  | [] => some (Except.error PyErr.eofError, w)
  | s :: rest => some (Except.ok s, { w with input := rest })

/-- The exact content `write_initial_file` (src/py.py:121-134) writes to
`/tmp/pyref_example.txt`. -/
def initialFileContent : List Char :=
  ("Line 1: Header - pyref example file\n" ++
   "Line 2: This is the second line (we'll prepend numbers here later)\n" ++
   "Line 3: Menu item A - apples\n" ++
   "Line 4: Menu item B - bananas\n" ++
   "Line 5: Menu item C - cherries\n").data

/-- `write_initial_file` as a step. -/
def write_initial_file_M : M Unit := fun w =>
  some (Except.ok (), { w with tmp := some initialFileContent })

/-- `append_text_to_file` as a step. -/
def append_text_to_file_M (text : List Char) : M Unit := fun w =>
  some (Except.ok (), { w with tmp := some (append_text_to_file text w.tmp) })

/-- `prepend_number_to_second_line` as a step. -/
def prepend_number_to_second_line_M : M Unit := fun w =>
  match prepend_number_to_second_line w.input w.tmp with
  | (Except.ok newTmp, inp) => some (Except.ok (), { w with tmp := newTmp, input := inp })
  | (Except.error e, inp) => some (Except.error e, { w with input := inp })

/-- `menu_from_file` as a step. -/
def menu_from_file_M : M (Option (List Char)) := fun w =>
  match (menu_from_file w.tmp w.keys).2 with
  | none => none
  | some (Except.ok r, ks) => some (Except.ok r, { w with keys := ks })
  | some (Except.error e, ks) => some (Except.error e, { w with keys := ks })

/-- Lines 481-486 of src/py.py: `try: v = int(input(...)) except Exception:
v = 0` — this block alone catches every non-interrupt failure of its read,
so the step always succeeds. -/
def conditional_demo_M : M Unit := fun w =>
  match w.input with
  | [] => some (Except.ok (), w)
  | _ :: rest => some (Except.ok (), { w with input := rest })

/-- `marker_file_demo` as a step. -/
def marker_file_demo_M : M Unit := fun w =>
  some (Except.ok (), { w with marker := (marker_file_demo w.marker).2 })

/-- `text_parsing_demo` (src/py.py:362-396) as a step: `read_text` on a
missing file raises `FileNotFoundError`; nothing inside the function
catches it.  Otherwise the file is rewritten by `text_parsing_transform`. -/
def text_parsing_demo_M : M Unit := fun w =>
  match w.tmp with
  | none => some (Except.error PyErr.fileNotFound, w)
  | some text => some (Except.ok (), { w with tmp := some (text_parsing_transform text) })

/-- Lines 509-512 of src/py.py: delete both scratch files, each deletion
guarded by `exists()`. -/
def cleanup_files_M : M Unit := fun w =>
  some (Except.ok (), { w with tmp := none, marker := none })

/-- The editing block of `main` (src/py.py:415-435), the body of the first
`try ... except KeyboardInterrupt`. -/
def editBlock : M Unit := do
  let b ← ask_yes_no_M ("Would you like to edit the example file now? (y/n) ".data)
  if b then do
    let t ← ask_for_text_M
    press_any_key_M
    append_text_to_file_M t
    prepend_number_to_second_line_M
  else
    press_any_key_M

/-- The cleanup block of `main` (src/py.py:506-520), the body of the second
`try ... except KeyboardInterrupt`. -/
def cleanupBlock : M Unit := do
  let b ← ask_yes_no_M ("Demo complete. Clean up example files? (y/n) ".data)
  if b then do
    cleanup_files_M
    press_any_key_M
  else
    press_any_key_M

/-- Embedding of `main` (src/py.py:401-522).  Steps that only print
(`display_demo`, `run_bash_command`, `capture_bash_output`,
`demonstrate_data_types`, `demonstrate_scope`, `demonstrate_functions`,
`demonstrate_imports`, `conditional_example`) have no effect on the world
beyond the inputs they consume and are elided or reduced to that
consumption.  The two `try ... except KeyboardInterrupt` blocks are the
only exception handlers `main` has. -/
def main_M : M Unit := do
  press_any_key_M
  write_initial_file_M
  catchInterrupt editBlock press_any_key_M
  press_any_key_M
  let _choice ← menu_from_file_M
  press_any_key_M
  press_any_key_M
  press_any_key_M
  press_any_key_M
  press_any_key_M
  press_any_key_M
  conditional_demo_M
  press_any_key_M
  press_any_key_M
  marker_file_demo_M
  press_any_key_M
  text_parsing_demo_M
  press_any_key_M
  catchInterrupt cleanupBlock press_any_key_M

/-- The error a finished run surfaces at top level, if any. -/
def runErr (r : Option (Except PyErr Unit × World)) : Option PyErr :=
  match r with
  | some (Except.error e, _) => some e
  | _ => none

/-- Whether a run completed normally. -/
def runsOk (r : Option (Except PyErr Unit × World)) : Bool :=
  match r with
  | some (Except.ok _, _) => true
  | _ => false


/-! ## Library of facts about the embedding -/

theorem splitlines_append_nl {l : List Char} (h : '\n' ∉ l) (rest : List Char) :
    splitlines (l ++ '\n' :: rest) = l :: splitlines rest := by
  induction l with
  | nil => simp [splitlines]
  | cons c cs ih =>
    have hc : c ≠ '\n' := fun e => h (e ▸ List.mem_cons_self c cs)
    have hcs : '\n' ∉ cs := fun hm => h (List.mem_cons_of_mem _ hm)
    show splitlines (c :: (cs ++ '\n' :: rest)) = (c :: cs) :: splitlines rest
    rw [splitlines, if_neg hc, ih hcs]

theorem mem_splitlines_no_nl : ∀ (s : List Char), ∀ l ∈ splitlines s, '\n' ∉ l := by
  intro s
  induction s with
  | nil => intro l hl; simp [splitlines] at hl
  | cons c cs ih =>
    intro l hl
    rw [splitlines] at hl
    by_cases hc : c = '\n'
    · rw [if_pos hc] at hl
      rcases List.mem_cons.mp hl with h | h
      · subst h; exact List.not_mem_nil _
      · exact ih l h
    · rw [if_neg hc] at hl
      rcases hsplit : splitlines cs with _ | ⟨hd, tl⟩ <;> rw [hsplit] at hl
      · have hl' : l = [c] := List.mem_singleton.mp hl
        subst hl'
        intro hmem
        exact hc (List.mem_singleton.mp hmem).symm
      · rcases List.mem_cons.mp hl with h | h
        · subst h
          intro hmem
          rcases List.mem_cons.mp hmem with e | e
          · exact hc e.symm
          · exact ih hd (hsplit ▸ List.mem_cons_self hd tl) e
        · exact ih l (hsplit ▸ List.mem_cons_of_mem hd h)

theorem splitlines_joinNl : ∀ (ls : List (List Char)), ls ≠ [] →
    (∀ l ∈ ls, '\n' ∉ l) → splitlines (joinNl ls) = ls := by
  intro ls
  induction ls with
  | nil => intro h; exact absurd rfl h
  | cons l tl ih =>
    intro _ hno
    cases tl with
    | nil =>
      show splitlines (l ++ '\n' :: []) = [l]
      rw [splitlines_append_nl (hno l (List.mem_cons_self l [])) []]
      rfl
    | cons l2 tl2 =>
      have hj : joinNl (l :: l2 :: tl2) = l ++ '\n' :: joinNl (l2 :: tl2) := by
        show (l ++ '\n' :: joinLines (l2 :: tl2)) ++ ['\n'] = l ++ '\n' :: (joinLines (l2 :: tl2) ++ ['\n'])
        simp [List.append_assoc]
      rw [hj, splitlines_append_nl (hno l (List.mem_cons_self l _)) _,
        ih (by simp) (fun x hx => hno x (List.mem_cons_of_mem l hx))]

theorem endSuffix_isSuffixOf_append (x : List Char) :
    endSuffix.isSuffixOf (x ++ endSuffix) = true := by
  rw [List.isSuffixOf_iff_suffix]
  exact List.suffix_append x endSuffix

/-! ## Claim theorems -/

/-- C1: for every invocation of `get_single_key`, the terminal mode in
effect immediately after the call (second component of the result) equals
the mode captured immediately before it, on every exit path: the normal
return, the empty-read return and the Ctrl-C interrupt path. -/
theorem get_single_key_restores_mode (mode : Nat) (keys : List Char) :
    (get_single_key mode keys).2.1 = mode := by
  cases keys with
  | nil => rfl
  | cons c rest =>
    by_cases h : c.toNat = 3 <;> simp [get_single_key, h]

/-- C9: `get_single_key` is total at end of input, returning `("", 0)` when
the raw read yields no character; on any single character other than Ctrl-C
it returns the character and its ordinal; and it raises `KeyboardInterrupt`
exactly when the character read is Ctrl-C (ordinal 3). -/
theorem get_single_key_decode (m : Nat) (c : Char) (ks : List Char) :
    get_single_key m [] = (Except.ok ([], 0), m, [])
    ∧ (c.toNat ≠ 3 → get_single_key m (c :: ks) = (Except.ok ([c], c.toNat), m, ks))
    ∧ (c.toNat = 3 → get_single_key m (c :: ks) = (Except.error (), m, ks)) := by
  refine ⟨rfl, fun h => ?_, fun h => ?_⟩ <;> simp [get_single_key, h]

/-- C8: `marker_file_demo` takes branch B and creates the marker file when
it is absent, takes branch A and leaves the marker in place when it is
present; hence two consecutive runs from a marker-free environment visit
branch B then branch A. -/
theorem marker_file_demo_branch_order :
    marker_file_demo none = (MarkerBranch.B, some markerContent)
    ∧ (∀ m, marker_file_demo (some m) = (MarkerBranch.A, some m))
    ∧ (marker_file_demo (marker_file_demo none).2).1 = MarkerBranch.A :=
  ⟨rfl, fun _ => rfl, rfl⟩

/-- C6 (counterexample): the scratch-file content `"a\nb"` has exactly 2
lines, yet after `append_text_to_file "hello"` the file still has 2 lines
(not 3) and its last line is `"bhello"` (not `"hello"`): the appended text
merges into an unterminated final line. -/
theorem append_hello_two_lines_cex :
    splitlines ("a\nb".data) = [['a'], ['b']]
    ∧ splitlines (append_text_to_file ("hello".data) (some ("a\nb".data)))
        = [['a'], "bhello".data] :=
  ⟨rfl, rfl⟩

/-- C6 (amended): for every scratch-file state with exactly 2 lines whose
content is newline-terminated (content of the form `a ++ "\n" ++ b ++
"\n"`), appending `"hello"` yields a file with exactly one more line whose
new last line is exactly `"hello"`. -/
theorem append_hello_newline_terminated (a b : List Char)
    (ha : '\n' ∉ a) (hb : '\n' ∉ b) :
    splitlines (a ++ '\n' :: (b ++ ['\n'])) = [a, b]
    ∧ splitlines (append_text_to_file ("hello".data) (some (a ++ '\n' :: (b ++ ['\n']))))
        = [a, b, "hello".data] := by
  have hh : ('\n' : Char) ∉ "hello".data := by decide
  constructor
  · rw [splitlines_append_nl ha,
      show (b ++ ['\n'] : List Char) = b ++ '\n' :: [] from rfl,
      splitlines_append_nl hb]
    rfl
  · show splitlines ((a ++ '\n' :: (b ++ ['\n'])) ++ "hello".data ++ ['\n']) = _
    have hre : ((a ++ '\n' :: (b ++ ['\n'])) ++ "hello".data ++ ['\n'] : List Char)
        = a ++ '\n' :: (b ++ '\n' :: ("hello".data ++ '\n' :: [])) := by
      simp
    rw [hre, splitlines_append_nl ha, splitlines_append_nl hb, splitlines_append_nl hh]
    rfl

/-- Witness for C6 (amended) at the concrete 2-line file `"x\ny\n"`. -/
theorem append_hello_newline_terminated_witness :
    splitlines (['x'] ++ '\n' :: (['y'] ++ ['\n'])) = [['x'], ['y']]
    ∧ splitlines (append_text_to_file ("hello".data) (some (['x'] ++ '\n' :: (['y'] ++ ['\n']))))
        = [['x'], ['y'], "hello".data] :=
  append_hello_newline_terminated ['x'] ['y'] (by decide) (by decide)

/-- C10: the second-line suffix operation of `text_parsing_demo` is
idempotent: on every file with at least 2 lines, applying it twice yields
the same second line as applying it once, because the `" -- END"` suffix is
appended only when the second line does not already end with it. -/
theorem suffixSecondLine_idempotent (lines : List (List Char)) (h : 2 ≤ lines.length) :
    (suffixSecondLine (suffixSecondLine lines)).get? 1 = (suffixSecondLine lines).get? 1 := by
  match lines, h with
  | l0 :: l1 :: rest, _ =>
    by_cases hs : endSuffix.isSuffixOf l1 = true
    · simp only [suffixSecondLine, if_pos hs]
    · simp only [suffixSecondLine, if_neg hs,
        if_pos (endSuffix_isSuffixOf_append (pyRstrip l1))]

/-- Witness for C10 at a concrete 2-line file. -/
theorem suffixSecondLine_idempotent_witness :
    (suffixSecondLine (suffixSecondLine ["a".data, "b".data])).get? 1
      = (suffixSecondLine ["a".data, "b".data]).get? 1 :=
  suffixSecondLine_idempotent ["a".data, "b".data] (by decide)

/-- C2 (counterexample): a run whose key stream answers the edit prompt
with `y` and whose line input is exhausted (Ctrl-D at the append-text
prompt) dies with an uncontained `EOFError` — a non-interrupt error arising
inside a demo step terminates the overall run instead of being contained
within the step. -/
theorem main_eof_error_terminates_run :
    runErr (main_M ⟨0, none, none, ['x', 'y'], []⟩) = some PyErr.eofError
    ∧ PyErr.eofError ≠ PyErr.interrupt :=
  ⟨rfl, by decide⟩

/-- C2 (amended): non-interrupt errors are not contained within a demo
step: `text_parsing_demo` signals `FileNotFoundError` when the scratch file
is missing instead of printing and aborting gracefully, the only handlers
in `main` (`catchInterrupt`) pass every non-interrupt error through, and a
non-interrupt error inside a step (here `EOFError` at the append-text
prompt) terminates the overall run. -/
theorem non_interrupt_errors_uncontained :
    (∀ w : World, w.tmp = none →
        text_parsing_demo_M w = some (Except.error PyErr.fileNotFound, w))
    ∧ (∀ (body handler : M Unit) (w w' : World) (e : PyErr),
        e ≠ PyErr.interrupt → body w = some (Except.error e, w') →
        catchInterrupt body handler w = some (Except.error e, w'))
    ∧ runErr (main_M ⟨0, none, none, ['a', 'y'], []⟩) = some PyErr.eofError := by
  refine ⟨fun w h => ?_, fun body handler w w' e he hb => ?_, rfl⟩
  · simp [text_parsing_demo_M, h]
  · unfold catchInterrupt
    rw [hb]
    cases e with
    | interrupt => exact absurd rfl he
    | fileNotFound => rfl
    | eofError => rfl

/-- Witness for C2 (amended): the missing-file case of `text_parsing_demo`
and the error passthrough of `catchInterrupt` at concrete inputs. -/
theorem non_interrupt_errors_uncontained_witness :
    text_parsing_demo_M ⟨0, none, none, [], []⟩
      = some (Except.error PyErr.fileNotFound, ⟨0, none, none, [], []⟩)
    ∧ catchInterrupt text_parsing_demo_M press_any_key_M ⟨0, none, none, [], []⟩
      = some (Except.error PyErr.fileNotFound, ⟨0, none, none, [], []⟩) :=
  ⟨(non_interrupt_errors_uncontained.1 ⟨0, none, none, [], []⟩ rfl),
    (non_interrupt_errors_uncontained.2.1 text_parsing_demo_M press_any_key_M
      ⟨0, none, none, [], []⟩ ⟨0, none, none, [], []⟩ PyErr.fileNotFound (by decide)
      (non_interrupt_errors_uncontained.1 ⟨0, none, none, [], []⟩ rfl))⟩

/-- C3 (counterexample): Ctrl-C pressed at the menu step propagates out of
`main` and aborts the whole sequence — the sequencer does not catch the
interrupt at the top of that step and does not continue to the next step. -/
theorem main_menu_interrupt_aborts_run :
    runErr (main_M ⟨0, none, none, ['x', 'n', 'x', 'x', Char.ofNat 3], []⟩)
      = some PyErr.interrupt :=
  rfl

/-- C3 (amended): only the edit block and the cleanup block of `main` are
wrapped in `except KeyboardInterrupt` handlers: an interrupt raised inside
one of those two blocks is caught at the top of that block and handled by a
single pause (which consumes exactly one key) after which the run continues
to completion; an interrupt in any other step propagates (see the
counterexample). -/
theorem interrupt_contained_in_wrapped_blocks :
    (∀ (body : M Unit) (w w' : World),
        body w = some (Except.error PyErr.interrupt, w') →
        catchInterrupt body press_any_key_M w = press_any_key_M w')
    ∧ (∀ (w : World) (c : Char) (rest : List Char),
        w.keys = c :: rest → c.toNat ≠ 3 →
        press_any_key_M w = some (Except.ok (), { w with keys := rest }))
    ∧ runsOk (main_M ⟨0, none, none,
        ['x', Char.ofNat 3, 'x', 'x', '3', 'x', 'x', 'x', 'x', 'x', 'x', 'x', 'x',
          'x', 'x', 'n', 'x'], []⟩) = true := by
  refine ⟨fun body w w' hb => ?_, fun w c rest hk h3 => ?_, rfl⟩
  · unfold catchInterrupt
    rw [hb]
  · cases w with
    | mk mo tmp mkr ks inp =>
      dsimp only at hk
      subst hk
      simp [press_any_key_M, get_single_key_M, get_single_key, h3]

/-- Witness for C3 (amended): a concrete interrupting block is caught and
handled by a pause consuming one concrete key. -/
theorem interrupt_contained_in_wrapped_blocks_witness :
    catchInterrupt (fun w => some (Except.error PyErr.interrupt, w)) press_any_key_M
        ⟨0, none, none, ['x'], []⟩
      = press_any_key_M ⟨0, none, none, ['x'], []⟩
    ∧ press_any_key_M ⟨0, none, none, ['x'], []⟩
      = some (Except.ok (), ⟨0, none, none, [], []⟩) :=
  ⟨interrupt_contained_in_wrapped_blocks.1 _ ⟨0, none, none, ['x'], []⟩
      ⟨0, none, none, ['x'], []⟩ rfl,
    interrupt_contained_in_wrapped_blocks.2.1 ⟨0, none, none, ['x'], []⟩ 'x' [] rfl (by decide)⟩

/-- C7: running `prepend_number_to_second_line` with entered integer `7`
rewrites the file so that the new second line is `"7 "` followed by the old
second line (so second line `"abc"` becomes `"7 abc"`); when the file has
only one line, a blank second line is created first and the number is
prepended to it, giving second line `"7 "`. -/
theorem prepend_seven_second_line (content : List Char) (rest : List (List Char))
    (l0 l1 : List Char) (ls : List (List Char)) :
    (splitlines content = l0 :: l1 :: ls →
      prepend_number_to_second_line ("7".data :: rest) (some content)
        = (Except.ok (some (joinNl (l0 :: ('7' :: ' ' :: l1) :: ls))), rest)
      ∧ splitlines (joinNl (l0 :: ('7' :: ' ' :: l1) :: ls)) = l0 :: ('7' :: ' ' :: l1) :: ls)
    ∧ (splitlines content = [l0] →
      prepend_number_to_second_line ("7".data :: rest) (some content)
        = (Except.ok (some (joinNl [l0, ['7', ' ']])), rest)
      ∧ splitlines (joinNl [l0, ['7', ' ']]) = [l0, ['7', ' ']]) := by
  have hstep : prepend_number_to_second_line ("7".data :: rest) (some content)
      = (match padTo2 (splitlines content) with
         | a :: b :: cs => (Except.ok (some (joinNl (a :: ("7".data ++ ' ' :: b) :: cs))), rest)
         | other => (Except.ok (some (joinNl other)), rest)) := rfl
  constructor
  · intro h
    have hno := mem_splitlines_no_nl content
    rw [h] at hno
    constructor
    · rw [hstep, h]; rfl
    · apply splitlines_joinNl
      · simp
      · intro x hx
        rcases List.mem_cons.mp hx with he | hx
        · rw [he]; exact hno l0 (List.mem_cons_self _ _)
        rcases List.mem_cons.mp hx with he | hx
        · rw [he]
          intro hm
          rcases List.mem_cons.mp hm with e | hm
          · exact absurd e.symm (by decide)
          rcases List.mem_cons.mp hm with e | hm
          · exact absurd e.symm (by decide)
          · exact hno l1 (List.mem_cons_of_mem _ (List.mem_cons_self _ _)) hm
        · exact hno x (List.mem_cons_of_mem _ (List.mem_cons_of_mem _ hx))
  · intro h
    have hno := mem_splitlines_no_nl content
    rw [h] at hno
    constructor
    · rw [hstep, h]; rfl
    · apply splitlines_joinNl
      · simp
      · intro x hx
        rcases List.mem_cons.mp hx with he | hx
        · rw [he]; exact hno l0 (List.mem_cons_self _ _)
        · rw [List.mem_singleton.mp hx]
          decide

/-- Witness for C7 on the concrete files `"x\nabc\n"` (second line `"abc"`
becomes `"7 abc"`) and `"x\n"` (one line; blank second line created, then
`"7 "`). -/
theorem prepend_seven_second_line_witness :
    (prepend_number_to_second_line ("7".data :: []) (some ("x\nabc\n".data))
        = (Except.ok (some (joinNl [['x'], '7' :: ' ' :: "abc".data])), [])
      ∧ splitlines (joinNl [['x'], '7' :: ' ' :: "abc".data]) = [['x'], '7' :: ' ' :: "abc".data])
    ∧ (prepend_number_to_second_line ("7".data :: []) (some ("x\n".data))
        = (Except.ok (some (joinNl [['x'], ['7', ' ']])), [])
      ∧ splitlines (joinNl [['x'], ['7', ' ']]) = [['x'], ['7', ' ']]) :=
  ⟨(prepend_seven_second_line ("x\nabc\n".data) [] ['x'] ("abc".data) []).1 (by decide),
   (prepend_seven_second_line ("x\n".data) [] ['x'] [] []).2 (by decide)⟩

theorem digit_char_facts (d : Nat) (h1 : 1 ≤ d) (h9 : d ≤ 9) :
    (Char.ofNat (48 + d)).toNat = 48 + d ∧ (Char.ofNat (48 + d)).isDigit = true := by
  interval_cases d <;> exact ⟨rfl, rfl⟩

/-- C5: in the list-selection loop of `menu_from_file` over the file's
nonblank lines: at most `min 9 n` items are displayed and selectable even
when more are supplied; pressing digit `d` with `1 ≤ d ≤ min 9 n` returns
the item at 0-based index `d - 1`; pressing Escape returns the no-selection
result; pressing a digit out of range does not return — the loop just
continues on the remaining keys. -/
theorem menu_from_file_selection (content : List Char) (lines : List (List Char))
    (hl : menu_lines content = lines) (hne : lines ≠ []) :
    (∀ keys, (menu_from_file (some content) keys).1 = lines.take (min 9 lines.length)
      ∧ (menu_from_file (some content) keys).1.length ≤ 9)
    ∧ (∀ (d : Nat) (rest : List Char), 1 ≤ d → d ≤ min 9 lines.length →
        (menu_from_file (some content) (Char.ofNat (48 + d) :: rest)).2
          = some (Except.ok (some (lines.getD (d - 1) [])), rest))
    ∧ (∀ rest : List Char,
        (menu_from_file (some content) (Char.ofNat 27 :: rest)).2
          = some (Except.ok none, rest))
    ∧ (∀ (d : Nat) (rest : List Char), min 9 lines.length < d → d ≤ 9 →
        (menu_from_file (some content) (Char.ofNat (48 + d) :: rest)).2
          = (menu_from_file (some content) rest).2) := by
  have hempty : lines.isEmpty = false := by
    cases lines with
    | nil => exact absurd rfl hne
    | cons a tl => rfl
  have hm : ∀ keys, menu_from_file (some content) keys
      = (lines.take (min 9 lines.length), menu_loop lines (min 9 lines.length) keys) := by
    intro keys
    show (let ls := menu_lines content
      if ls.isEmpty then ([], some (Except.ok none, keys))
      else (ls.take (min 9 ls.length), menu_loop ls (min 9 ls.length) keys)) = _
    rw [hl]
    simp [hempty]
  refine ⟨fun keys => ⟨by rw [hm], ?_⟩, fun d rest h1 hdm => ?_, fun rest => ?_,
    fun d rest hout h9 => ?_⟩
  · rw [hm]
    simp only [List.length_take]
    omega
  · have h9 : d ≤ 9 := le_trans hdm (Nat.min_le_left _ _)
    obtain ⟨ht, hdig⟩ := digit_char_facts d h1 h9
    rw [hm]
    show menu_loop lines (min 9 lines.length) (Char.ofNat (48 + d) :: rest) = _
    rw [menu_loop, ht]
    rw [if_neg (by omega), if_neg (by omega), if_pos hdig]
    have hsub : 48 + d - 48 = d := by omega
    rw [hsub, if_pos ⟨h1, hdm⟩]
  · rw [hm]
    show menu_loop lines (min 9 lines.length) (Char.ofNat 27 :: rest) = _
    rw [menu_loop]
    rw [if_neg (by decide), if_pos (by decide)]
  · have h1 : 1 ≤ d := by omega
    obtain ⟨ht, hdig⟩ := digit_char_facts d h1 h9
    rw [hm, hm]
    show menu_loop lines (min 9 lines.length) (Char.ofNat (48 + d) :: rest)
      = menu_loop lines (min 9 lines.length) rest
    rw [menu_loop, ht]
    rw [if_neg (by omega), if_neg (by omega), if_pos hdig]
    have hsub : 48 + d - 48 = d := by omega
    rw [hsub, if_neg (by omega)]

/-- Witness for C5 on a 5-item menu: pressing `3` selects the item at index
2, Escape cancels, and the out-of-range digit `9` leaves the loop running
on the remaining keys. -/
theorem menu_from_file_selection_witness :
    (menu_from_file (some ("a\nb\nc\nd\ne\n".data)) (Char.ofNat (48 + 3) :: ['x'])).2
      = some (Except.ok (some ([['a'], ['b'], ['c'], ['d'], ['e']].getD 2 [])), ['x'])
    ∧ (menu_from_file (some ("a\nb\nc\nd\ne\n".data)) (Char.ofNat 27 :: [])).2
      = some (Except.ok none, [])
    ∧ (menu_from_file (some ("a\nb\nc\nd\ne\n".data)) (Char.ofNat (48 + 9) :: [Char.ofNat 27])).2
      = (menu_from_file (some ("a\nb\nc\nd\ne\n".data)) [Char.ofNat 27]).2 :=
  ⟨(menu_from_file_selection ("a\nb\nc\nd\ne\n".data) [['a'], ['b'], ['c'], ['d'], ['e']]
      (by decide) (by decide)).2.1 3 ['x'] (by decide) (by decide),
   (menu_from_file_selection ("a\nb\nc\nd\ne\n".data) [['a'], ['b'], ['c'], ['d'], ['e']]
      (by decide) (by decide)).2.2.1 [],
   (menu_from_file_selection ("a\nb\nc\nd\ne\n".data) [['a'], ['b'], ['c'], ['d'], ['e']]
      (by decide) (by decide)).2.2.2 9 [Char.ofNat 27] (by decide) (by decide)⟩

theorem ask_loop_all_rejected (keys : List Char)
    (hk : ∀ x ∈ keys, yesNoRejected x = true) :
    ∀ out, ask_yes_no_loop keys out = none := by
  induction keys with
  | nil => intro out; rfl
  | cons c cs ih =>
    intro out
    have hc := hk c (List.mem_cons_self _ _)
    simp only [yesNoRejected, Bool.and_eq_true, decide_eq_true_eq] at hc
    obtain ⟨⟨⟨h3, hy⟩, hn⟩, h27⟩ := hc
    rw [ask_yes_no_loop]
    rw [if_neg h3, if_neg hy, if_neg hn, if_neg h27]
    exact ih (fun x hx => hk x (List.mem_cons_of_mem _ hx)) _

theorem ask_loop_skip (pre : List Char) (hpre : ∀ x ∈ pre, yesNoRejected x = true)
    (tail : List Char) :
    ∀ out, ∃ extra, ask_yes_no_loop (pre ++ tail) out = ask_yes_no_loop tail (out ++ extra)
      ∧ ∀ x ∈ pre, [x, '\n'] ∈ out ++ extra := by
  induction pre with
  | nil =>
    intro out
    exact ⟨[], by simp, by simp⟩
  | cons c cs ih =>
    intro out
    have hc := hpre c (List.mem_cons_self _ _)
    simp only [yesNoRejected, Bool.and_eq_true, decide_eq_true_eq] at hc
    obtain ⟨⟨⟨h3, hy⟩, hn⟩, h27⟩ := hc
    obtain ⟨extra, he, hmem⟩ := ih (fun x hx => hpre x (List.mem_cons_of_mem _ hx))
      (out ++ [[c, '\n']] ++ ["Please press 'y' or 'n': ".data])
    refine ⟨[[c, '\n']] ++ ["Please press 'y' or 'n': ".data] ++ extra, ?_, ?_⟩
    · show ask_yes_no_loop (c :: (cs ++ tail)) out = _
      rw [ask_yes_no_loop]
      rw [if_neg h3, if_neg hy, if_neg hn, if_neg h27, he]
      congr 1
      simp [List.append_assoc]
    · intro x hx
      rcases List.mem_cons.mp hx with he' | hx
      · rw [he']
        simp
      · have hin := hmem x hx
        simp only [List.append_assoc, List.mem_append] at hin ⊢
        tauto

/-- C4: on every key sequence fed to `ask_yes_no` whose first
non-rejected key is `c` (all keys before `c` being rejected), the call
returns true exactly when `c` lowercases to `y`, returns false exactly when
`c` lowercases to `n` or is Escape, propagates the interrupt when `c` is
Ctrl-C, echoes every pressed key followed by a newline, and never returns
at all on a sequence of only rejected keys. -/
theorem ask_yes_no_first_decider (q : Out) (keys pre : List Char) (c : Char)
    (rest : List Char) (hsplit : keys = pre ++ c :: rest)
    (hpre : ∀ x ∈ pre, yesNoRejected x = true) :
    (c.toNat ≠ 3 → c.toLower = 'y' →
      ∃ out, ask_yes_no q keys = some (Except.ok true, rest, out)
        ∧ [c, '\n'] ∈ out ∧ ∀ x ∈ pre, [x, '\n'] ∈ out)
    ∧ (c.toNat ≠ 3 → c.toLower ≠ 'y' → (c.toLower = 'n' ∨ c.toNat = 27) →
      ∃ out, ask_yes_no q keys = some (Except.ok false, rest, out)
        ∧ [c, '\n'] ∈ out ∧ ∀ x ∈ pre, [x, '\n'] ∈ out)
    ∧ (c.toNat = 3 →
      ∃ out, ask_yes_no q keys = some (Except.error (), rest, out))
    ∧ (∀ ks : List Char, (∀ x ∈ ks, yesNoRejected x = true) → ask_yes_no q ks = none) := by
  obtain ⟨extra, he, hmem⟩ := ask_loop_skip pre hpre (c :: rest) [q]
  have hask : ask_yes_no q keys = ask_yes_no_loop (c :: rest) ([q] ++ extra) := by
    rw [ask_yes_no, hsplit, he]
  refine ⟨fun h3 hy => ?_, fun h3 hy hd => ?_, fun h3 => ?_,
    fun ks hks => ask_loop_all_rejected ks hks [q]⟩
  · refine ⟨[q] ++ extra ++ [[c, '\n']], ?_, by simp, fun x hx => ?_⟩
    · rw [hask, ask_yes_no_loop]
      rw [if_neg h3, if_pos hy]
    · have := hmem x hx
      simp only [List.mem_append] at this ⊢
      tauto
  · refine ⟨[q] ++ extra ++ [[c, '\n']], ?_, by simp, fun x hx => ?_⟩
    · rw [hask, ask_yes_no_loop]
      rcases hd with hn | h27
      · rw [if_neg h3, if_neg hy, if_pos hn]
      · by_cases hn : c.toLower = 'n'
        · rw [if_neg h3, if_neg hy, if_pos hn]
        · rw [if_neg h3, if_neg hy, if_neg hn, if_pos h27]
    · have := hmem x hx
      simp only [List.mem_append] at this ⊢
      tauto
  · refine ⟨[q] ++ extra, ?_⟩
    rw [hask, ask_yes_no_loop]
    rw [if_pos h3]

/-- Witness for C4: the key sequence `x`, `Y` (one rejected key, then an
accepting uppercase `Y`) returns true, echoing both keys. -/
theorem ask_yes_no_first_decider_witness :
    ∃ out, ask_yes_no ("Q".data) (['x'] ++ 'Y' :: []) = some (Except.ok true, [], out)
      ∧ ['Y', '\n'] ∈ out ∧ ∀ x ∈ ['x'], [x, '\n'] ∈ out :=
  (ask_yes_no_first_decider ("Q".data) (['x'] ++ 'Y' :: []) ['x'] 'Y' [] rfl
    (by decide)).1 (by decide) (by decide)
